import Mathlib

/-!
Verification development for the eFootball auction bot's auction
coordination core.  The Lean definitions below are shallow embeddings of
the Python source: `config/settings.py` (configuration constants),
`utilities/helpers.py` (`ValidationHelper.validate_bid_amount`),
`handlers/user_handlers.py` (`_process_bid_amount`, `handle_quick_bid`),
`handlers/admin_handlers.py` (round finalization, undo, pause/resume,
final call) and `database/db.py` (balance/auction updates).  Monetary
amounts are modelled as `Int` (Python integers are unbounded, so no
wrap-around is involved).
-/

namespace AuctionBot

/-- `BID_INCREMENT` from `config/settings.py` (1M). -/
def BID_INCREMENT : Int := 1000000

/-- `MAX_STRAIGHT_BID` from `config/settings.py` (20M). -/
def MAX_STRAIGHT_BID : Int := 20000000

/-- `DEFAULT_BALANCE` from `config/settings.py` (200M). -/
def DEFAULT_BALANCE : Int := 200000000

/-!
## Bid amount parsing and validation (`utilities/helpers.py`)

`validate_bid_amount` first parses the (cleaned) amount string: a string
containing a `.` is read as decimal millions (`int(float(s) * 1_000_000)`),
otherwise it is read as an integer which is multiplied by 1,000,000 when it
is at most 999.  We embed the already-lexed numeral as `RawAmount`:
`intStr n` is an integer numeral of value `n`, `decStr u` is a decimal
numeral whose scaled value `int(float(s) * 1_000_000)` is `u`, and
`invalid` is an unparseable string (the `ValueError` branch).
-/

inductive RawAmount where
  | intStr (n : Int)
  | decStr (u : Int)
  | invalid
deriving DecidableEq

/-- The parsing/normalization stage of `validate_bid_amount`
(`utilities/helpers.py`, lines 59-74): integer numerals of magnitude at
most 999 are auto-detected as millions. -/
def parseAmount : RawAmount → Option Int
  | .intStr n => some (if n ≤ 999 then n * 1000000 else n)
  | .decStr u => some u
  | .invalid => none

/-- Rejection reasons of `validate_bid_amount`, in the order the checks
appear in the source. -/
inductive BidReject where
  | invalidAmount
  | notPositive
  | tooHigh
  | belowCurrent
  | minIncrement
  | insufficientBalance
deriving DecidableEq

inductive BidResult where
  | accept (amount : Int)
  | reject (r : BidReject)
deriving DecidableEq

/-- The check chain of `validate_bid_amount` (`utilities/helpers.py`,
lines 76-100) applied to the normalized amount, in source order:
positivity, absolute 10B cap, strictly-above-current, the tiered
increment rule (the minimum increment `BID_INCREMENT` is enforced only
when `current_bid >= base_price + MAX_STRAIGHT_BID`), then balance. -/
def checkBid (amount current_bid user_balance base_price : Int) : BidResult :=
  if amount ≤ 0 then .reject .notPositive
  else if 10000000000 < amount then .reject .tooHigh
  else if amount ≤ current_bid then .reject .belowCurrent
  else if base_price + MAX_STRAIGHT_BID ≤ current_bid ∧
          amount - current_bid < BID_INCREMENT then .reject .minIncrement
  else if user_balance < amount then .reject .insufficientBalance
  else .accept amount

/-- `ValidationHelper.validate_bid_amount` (`utilities/helpers.py`,
lines 55-100): parse/normalize, then run the check chain. -/
def validate_bid_amount (raw : RawAmount) (current_bid user_balance base_price : Int) :
    BidResult :=
  match parseAmount raw with
  | none => .reject .invalidAmount
  | some amount => checkBid amount current_bid user_balance base_price

/-- The tiered increment rule exactly as claim C3 (and spec section 4.2)
words it: below the threshold `base_price + MAX_STRAIGHT_BID` only a bid
exceeding the current bid by exactly `BID_INCREMENT` is legal; at or
above the threshold any amount exceeding the current bid by at least
`BID_INCREMENT` is legal.  Stated from the spec's words, for comparison
against the source-derived `checkBid`. -/
def specTieredLegal (amount current_bid base_price : Int) : Prop :=
  (current_bid < base_price + MAX_STRAIGHT_BID ∧ amount = current_bid + BID_INCREMENT)
  ∨ (base_price + MAX_STRAIGHT_BID ≤ current_bid ∧ current_bid + BID_INCREMENT ≤ amount)

instance (amount current_bid base_price : Int) :
    Decidable (specTieredLegal amount current_bid base_price) := by
  unfold specTieredLegal; infer_instance

end AuctionBot

namespace AuctionBot

/-- Claim C3 counterexample: with base price 10M, current bid 10M (below
the 30M threshold) and a 200M balance, the source accepts a bid of 15M,
although the claim's tiered rule only allows exactly 11M below the
threshold.  The code enforces the increment rule only at or above the
threshold, the reverse of the claim's tiering. -/
theorem C3_counterexample :
    validate_bid_amount (.intStr 15) 10000000 200000000 10000000 = .accept 15000000
    ∧ ¬ specTieredLegal 15000000 10000000 10000000 := by
  decide

/-- Core characterization of the check chain: `checkBid` accepts iff the
amount passes every check of `utilities/helpers.py` lines 76-100. -/
theorem checkBid_accept_iff (amount current_bid user_balance base_price a : Int) :
    checkBid amount current_bid user_balance base_price = .accept a ↔
      (amount = a ∧ 0 < a ∧ a ≤ 10000000000 ∧ current_bid < a ∧
        (base_price + MAX_STRAIGHT_BID ≤ current_bid → current_bid + BID_INCREMENT ≤ a) ∧
        a ≤ user_balance) := by
  unfold checkBid
  split_ifs with h1 h2 h3 h4 h5 <;> simp_all <;> omega

/-- Claim C3 (amended): `validate_bid_amount` accepts a parseable amount
iff the normalized amount is positive, at most 10B, strictly above the
current bid, meets the minimum increment `BID_INCREMENT` whenever the
current bid is at or above `base_price + MAX_STRAIGHT_BID` (below that
threshold any strictly larger amount is legal), and is within the
bidder's balance. -/
theorem C3_amended_validate_accept_iff (raw : RawAmount)
    (current_bid user_balance base_price a : Int) :
    validate_bid_amount raw current_bid user_balance base_price = .accept a ↔
      (parseAmount raw = some a ∧ 0 < a ∧ a ≤ 10000000000 ∧ current_bid < a ∧
        (base_price + MAX_STRAIGHT_BID ≤ current_bid → current_bid + BID_INCREMENT ≤ a) ∧
        a ≤ user_balance) := by
  rcases raw with n | u | _
  · simpa [validate_bid_amount, parseAmount] using
      checkBid_accept_iff (if n ≤ 999 then n * 1000000 else n)
        current_bid user_balance base_price a
  · simpa [validate_bid_amount, parseAmount] using
      checkBid_accept_iff u current_bid user_balance base_price a
  · simp [validate_bid_amount, parseAmount]

/-- Claim C10: `validate_bid_amount` enforces an absolute range on every
normalized amount before looking at the current bid, the base price or
the balance: a non-positive amount is rejected as not positive, and an
amount above 10,000,000,000 is rejected as too high, whatever the other
arguments are. -/
theorem C10_absolute_range (a current_bid user_balance base_price : Int)
    (h : a ≤ 0 ∨ 10000000000 < a) :
    checkBid a current_bid user_balance base_price =
      .reject (if a ≤ 0 then BidReject.notPositive else BidReject.tooHigh) := by
  rcases h with h | h
  · simp [checkBid, h]
  · have h0 : ¬ a ≤ 0 := by omega
    simp [checkBid, h, h0]

/-- Witness for C10 at the concrete inputs `-3` and `20000000000`
(the latter with a huge balance, showing the cap ignores balance). -/
theorem C10_absolute_range_witness :
    checkBid (-3) 0 200000000 10000000 = .reject BidReject.notPositive ∧
    checkBid 20000000000 0 100000000000 10000000 = .reject BidReject.tooHigh := by
  constructor
  · simpa using C10_absolute_range (-3) 0 200000000 10000000 (Or.inl (by decide))
  · simpa using C10_absolute_range 20000000000 0 100000000000 10000000 (Or.inr (by decide))

/-!
## Bid shorthand processing (`handlers/user_handlers.py`)

`UserHandlers._process_bid_amount` (lines 173-203) handles three input
shapes: a string starting with `+` (increment over the current bid, in
millions), the word `max`, and a plain numeral (sharing the decimal /
auto-millions normalization of `validate_bid_amount`).  We embed the
lexed input; `plus n` stands for `+` followed by the integer numeral `n`
(the source also allows a decimal there, which scales the same way). -/

inductive BidInputStr where
  | plus (n : Int)
  | maxWord
  | num (raw : RawAmount)
deriving DecidableEq

/-- `UserHandlers._process_bid_amount`: `+n` yields the current bid plus
`n` million; `max` yields the balance capped at the current bid plus
`MAX_STRAIGHT_BID`; a plain numeral is normalized like in
`validate_bid_amount` (`none` is the parse-failure return). -/
def process_bid_amount (inp : BidInputStr) (current_bid balance : Int) : Option Int :=
  match inp with
  | .plus n => some (current_bid + n * 1000000)
  | .maxWord => some (min balance (current_bid + MAX_STRAIGHT_BID))
  | .num raw => parseAmount raw

/-- Claim C7: shorthand normalization.  A bare integer numeral of value
at most 999 is read as millions; `+n` yields the current bid plus `n`
million; `max` yields the minimum of the balance and the current bid plus
`MAX_STRAIGHT_BID`; and every amount `validate_bid_amount` accepts is the
normalized whole-unit integer produced by parsing. -/
theorem C7_shorthand_normalization (n current_bid balance base_price a : Int)
    (raw : RawAmount) :
    (n ≤ 999 → process_bid_amount (.num (.intStr n)) current_bid balance =
        some (n * 1000000)) ∧
    process_bid_amount (.plus n) current_bid balance =
        some (current_bid + n * 1000000) ∧
    process_bid_amount .maxWord current_bid balance =
        some (min balance (current_bid + MAX_STRAIGHT_BID)) ∧
    (validate_bid_amount raw current_bid balance base_price = .accept a →
        parseAmount raw = some a) := by
  refine ⟨fun h => by simp [process_bid_amount, parseAmount, h], rfl, rfl, fun h => ?_⟩
  unfold validate_bid_amount at h
  rcases hp : parseAmount raw with _ | amount <;> rw [hp] at h
  · exact absurd h (by simp)
  · have hq := (checkBid_accept_iff amount current_bid balance base_price a).mp h
    rw [hq.1]

/-- Witness for C7 at concrete inputs: bare `15` is 15M, `+5` over a 10M
current bid is 15M, `max` with a 200M balance and 10M current bid is 30M,
and the accepted amount for the bare numeral `15` is its normalization. -/
theorem C7_shorthand_normalization_witness :
    process_bid_amount (.num (.intStr 15)) 10000000 200000000 = some 15000000 ∧
    process_bid_amount (.plus 5) 10000000 200000000 = some 15000000 ∧
    process_bid_amount .maxWord 10000000 200000000 = some 30000000 ∧
    parseAmount (.intStr 15) = some 15000000 := by
  have t := C7_shorthand_normalization 15 10000000 200000000 10000000 15000000 (.intStr 15)
  have t5 := C7_shorthand_normalization 5 10000000 200000000 10000000 15000000 (.intStr 15)
  exact ⟨t.1 (by decide), t5.2.1, by simpa using t.2.2.1, t.2.2.2 (by decide)⟩

/-!
## Data model (`database/models.py`)

`Auction` keeps the fields of the Python dataclass that the claims are
about: player name, base price, current bid/bidder, the ordered bid list
and the status.  `Manager` keeps user id, balance, total spent and the
acquired-players list.  A `Bid` record keeps bidder and amount (the
source also stores timestamp and a source tag, which no claim needs). -/

inductive AuctionStatus where
  | pending
  | active
  | paused
  | completed
  | cancelled
deriving DecidableEq

structure BidEntry where
  user_id : Int
  amount : Int
deriving DecidableEq

structure Auction where
  player_name : String
  base_price : Int
  current_bid : Int
  current_bidder : Option Int
  bids : List BidEntry
  status : AuctionStatus
deriving DecidableEq

structure OwnedPlayer where
  name : String
  price : Int
deriving DecidableEq

structure Manager where
  user_id : Int
  balance : Int
  total_spent : Int
  players : List OwnedPlayer
deriving DecidableEq

/-!
## Quick-bid button path (`handlers/user_handlers.py`, lines 809-876)

`UserHandlers.handle_quick_bid` re-validates a quick-bid button press
with its own checks, in source order: anti-spam cooldown, registration,
ban flag, that the named auction is still the current active auction,
that the amount strictly exceeds the current bid, and that the amount is
within the bidder's balance.  It never calls `validate_bid_amount`.  The
context record carries the outcomes of the non-numeric lookups. -/

structure QuickBidCtx where
  in_cooldown : Bool
  registered : Bool
  banned : Bool
  auction_is_current : Bool
  current_bid : Int
  balance : Int
deriving DecidableEq

/-- Acceptance decision of `handle_quick_bid`: `true` exactly when the
bid is recorded (`db.update_auction_bid` is reached). -/
def handle_quick_bid (c : QuickBidCtx) (amount : Int) : Bool :=
  !c.in_cooldown && c.registered && !c.banned && c.auction_is_current &&
    decide (c.current_bid < amount) && decide (amount ≤ c.balance)

/-- Claim C9 counterexample: a banned bidder pressing a quick-bid button
for the current active auction, with an amount above the current bid and
within balance, is rejected — so "accepted iff the named auction is
current, the amount exceeds the current bid and is within balance" fails
as stated (the quick path also checks registration, ban and cooldown). -/
theorem C9_counterexample :
    handle_quick_bid
      { in_cooldown := false, registered := true, banned := true,
        auction_is_current := true, current_bid := 5000000,
        balance := 200000000 } 6000000 = false := by
  decide

/-- Claim C9 (amended): for a registered, non-banned bidder outside the
anti-spam cooldown, a quick bid is accepted iff the named auction is the
current active auction, the amount strictly exceeds the current bid and
the amount is within the balance.  The tiered increment rule, the 10B
cap and shorthand normalization do not appear in the condition: this
path is strictly weaker than the typed `/bid` validation. -/
theorem C9_amended_quick_bid_iff (c : QuickBidCtx) (amount : Int)
    (h1 : c.in_cooldown = false) (h2 : c.registered = true)
    (h3 : c.banned = false) :
    handle_quick_bid c amount = true ↔
      (c.auction_is_current = true ∧ c.current_bid < amount ∧ amount ≤ c.balance) := by
  simp [handle_quick_bid, h1, h2, h3, and_assoc]

/-- Witness for C9 (amended) at a concrete context: a quick bid of
10.5B (over the typed path's 10B cap, and only one unit above the
current bid, under the typed path's minimum increment at this level) is
accepted. -/
theorem C9_amended_quick_bid_iff_witness :
    handle_quick_bid
      { in_cooldown := false, registered := true, banned := false,
        auction_is_current := true, current_bid := 10499999999,
        balance := 20000000000 } 10500000000 = true := by
  exact (C9_amended_quick_bid_iff _ 10500000000 rfl rfl rfl).mpr (by decide)

/-!
## Settlement (`handlers/admin_handlers.py` lines 574-678, `database/db.py`)

`Database.update_manager_balance` sets the balance to the given value and
increments `total_spent`; on a storage failure it catches the exception,
logs, and returns `False` — it never raises to its caller.
`AdminHandlers._finalize_auction_win` computes `new_balance = balance -
current_bid`, calls `update_manager_balance` (ignoring its return value),
then `add_player_to_manager`, then `complete_auction`.  The `debit_ok`
flag models whether the balance update reached storage; the handler's
control flow does not depend on it. -/

/-- `Database.update_manager_balance` (db.py lines 118-139), success
path: set balance, increment `total_spent`. -/
def update_manager_balance (m : Manager) (new_balance spent : Int) : Manager :=
  { m with balance := new_balance, total_spent := m.total_spent + spent }

/-- `Database.add_player_to_manager` (db.py lines 141-169): push the
player onto the manager's list. -/
def add_player_to_manager (m : Manager) (name : String) (price : Int) : Manager :=
  { m with players := m.players ++ [{ name := name, price := price }] }

/-- `Database.complete_auction` (db.py lines 425-444): set the status to
completed. -/
def complete_auction (a : Auction) : Auction :=
  { a with status := .completed }

/-- `AdminHandlers._finalize_auction_win` (admin_handlers.py lines
574-678): debit the winner by the current bid (the debit silently does
nothing when the storage update fails, `debit_ok = false`), record the
acquisition, and complete the auction.  The handler never inspects the
debit result. -/
def finalize_auction_win (a : Auction) (winner : Manager) (debit_ok : Bool) :
    Manager × Auction :=
  let w1 := if debit_ok then
      update_manager_balance winner (winner.balance - a.current_bid) a.current_bid
    else winner
  let w2 := add_player_to_manager w1 a.player_name a.current_bid
  (w2, complete_auction a)

/-- `AdminHandlers._finalize_auction_unsold` (admin_handlers.py lines
680-746), state effect: complete the auction; no monetary effect. -/
def finalize_auction_unsold (a : Auction) : Auction :=
  complete_auction a

/-- Claim C4: for a Sold outcome, one settlement debits the winner
exactly once — afterwards the balance is the old balance minus the
winning bid, `total_spent` has grown by the winning bid, the player is
recorded as acquired by the winner, and the auction is completed. -/
theorem C4_settlement_effect (a : Auction) (w : Manager) :
    (finalize_auction_win a w true).1.balance = w.balance - a.current_bid ∧
    (finalize_auction_win a w true).1.total_spent = w.total_spent + a.current_bid ∧
    ({ name := a.player_name, price := a.current_bid } : OwnedPlayer) ∈
      (finalize_auction_win a w true).1.players ∧
    (finalize_auction_win a w true).2.status = .completed := by
  simp [finalize_auction_win, update_manager_balance, add_player_to_manager,
    complete_auction]

/-- Concrete auction used in the C5 and C1 evaluations: bid 15M by
bidder 7, still active. -/
def auctC5 : Auction :=
  { player_name := "P", base_price := 10000000, current_bid := 15000000,
    current_bidder := some 7, bids := [{ user_id := 7, amount := 15000000 }],
    status := .active }

/-- Concrete winner record used in the C5 and C1 evaluations. -/
def mgrC5 : Manager :=
  { user_id := 7, balance := 200000000, total_spent := 0, players := [] }

/-- Claim C5 is violated by the code: when the balance-debit storage
update fails, `update_manager_balance` swallows the exception and
returns `False`, `_finalize_auction_win` ignores that result, still
records the acquisition and still marks the auction completed — the
round is reported Completed-as-sold with no debit applied and no
distinguishable failed state. -/
theorem C5_debit_failure_still_completed :
    (finalize_auction_win auctC5 mgrC5 false).2.status = .completed ∧
    (finalize_auction_win auctC5 mgrC5 false).1.balance = mgrC5.balance ∧
    (finalize_auction_win auctC5 mgrC5 false).1.total_spent = 0 ∧
    ({ name := "P", price := 15000000 } : OwnedPlayer) ∈
      (finalize_auction_win auctC5 mgrC5 false).1.players := by
  decide

/-!
## Undo (`handlers/admin_handlers.py`, `AdminHandlers.undo_bid`,
lines 1326-1391)

With no bids the handler replies "No bids to undo!" and changes nothing.
Otherwise it pops the last bid; if bids remain, the current bid/bidder
become those of the new last bid, and with an empty remainder the
current bid reverts to the base price with no bidder. -/

inductive UndoResult where
  | nothingToUndo
  | undone (a : Auction)
deriving DecidableEq

/-- `AdminHandlers.undo_bid`, acting on the current active auction. -/
def undo_bid (a : Auction) : UndoResult :=
  if a.bids = [] then .nothingToUndo
  else
    let newBids := a.bids.dropLast
    match newBids.getLast? with
    | some prev =>
        .undone { a with bids := newBids, current_bid := prev.amount,
                         current_bidder := some prev.user_id }
    | none =>
        .undone { a with bids := newBids, current_bid := a.base_price,
                         current_bidder := none }

/-- Claim C6: undo on an empty history is an explicit no-op signal; undo
on a history `pre ++ [last]` leaves exactly `pre`, with the current
bid/bidder taken from the new last element, or the base-price/no-bidder
base state when `pre` is empty. -/
theorem C6_undo_correct (a : Auction) :
    (a.bids = [] → undo_bid a = .nothingToUndo) ∧
    (∀ pre last, a.bids = pre ++ [last] →
      undo_bid a = .undone { a with
        bids := pre,
        current_bid := ((pre.getLast?).map BidEntry.amount).getD a.base_price,
        current_bidder := (pre.getLast?).map BidEntry.user_id }) := by
  constructor
  · intro h
    simp [undo_bid, h]
  · intro pre last h
    have hne : a.bids ≠ [] := by simp [h]
    unfold undo_bid
    rw [if_neg hne]
    have hdrop : a.bids.dropLast = pre := by rw [h]; exact List.dropLast_concat
    rw [hdrop]
    rcases hl : pre.getLast? with _ | prev <;> simp [hl]

/-- Witness for C6 on the concrete history [10M by 1, 11M by 2, 12M by 3]
(spec section 8 scenario 4): undo leaves [10M, 11M] with current bid 11M
by bidder 2. -/
theorem C6_undo_correct_witness :
    undo_bid { player_name := "P", base_price := 10000000, current_bid := 12000000,
               current_bidder := some 3,
               bids := [{ user_id := 1, amount := 10000000 },
                        { user_id := 2, amount := 11000000 },
                        { user_id := 3, amount := 12000000 }],
               status := .active } =
      .undone { player_name := "P", base_price := 10000000, current_bid := 11000000,
                current_bidder := some 2,
                bids := [{ user_id := 1, amount := 10000000 },
                         { user_id := 2, amount := 11000000 }],
                status := .active } := by
  have t := (C6_undo_correct
    { player_name := "P", base_price := 10000000, current_bid := 12000000,
      current_bidder := some 3,
      bids := [{ user_id := 1, amount := 10000000 },
               { user_id := 2, amount := 11000000 },
               { user_id := 3, amount := 12000000 }],
      status := .active }).2
    [{ user_id := 1, amount := 10000000 }, { user_id := 2, amount := 11000000 }]
    { user_id := 3, amount := 12000000 } rfl
  simpa using t

/-!
## Accepted-bid histories (claim C8)

A bid history is built by the two submission paths: the typed `/bid`
command (which runs `validate_bid_amount` against the current bid before
`db.update_auction_bid` appends, `user_handlers.py` lines 151-231) and
the quick-bid button (`handle_quick_bid`, which appends after its own
checks).  `BidChain base_price c l` says the successive amounts `l` were
each accepted, by one of the two paths, against the previous amount as
the current bid (`c` is the current bid before the first of them). -/

inductive BidChain (base_price : Int) : Int → List Int → Prop where
  | nil (c : Int) : BidChain base_price c []
  | typed (c a : Int) (rest : List Int) (bal : Int) :
      checkBid a c bal base_price = .accept a →
      BidChain base_price a rest → BidChain base_price c (a :: rest)
  | quick (c a : Int) (rest : List Int) (ctx : QuickBidCtx) :
      ctx.current_bid = c → handle_quick_bid ctx a = true →
      BidChain base_price a rest → BidChain base_price c (a :: rest)

/-- Claim C8 counterexample: with base price 10M and current bid 10M
(below the threshold), the typed path accepts a bid of 10,000,001 — one
unit above the previous accepted amount, far below the claimed minimum
increment `BID_INCREMENT` of the section-4.2 rule. -/
theorem C8_counterexample :
    checkBid 10000001 10000000 200000000 10000000 = .accept 10000001 ∧
    10000001 - 10000000 < BID_INCREMENT := by
  decide

/-- Claim C8 (amended): every accepted bid history is strictly
increasing — on both submission paths each accepted amount strictly
exceeds the previous one — and the `BID_INCREMENT` lower bound holds
only on the typed path and only when the previous amount is at or above
`base_price + MAX_STRAIGHT_BID`. -/
theorem C8_amended_monotonic (base_price c : Int) (l : List Int)
    (h : BidChain base_price c l) :
    List.Chain' (· < ·) (c :: l) ∧
    (∀ a cur bal, checkBid a cur bal base_price = .accept a →
      base_price + MAX_STRAIGHT_BID ≤ cur → cur + BID_INCREMENT ≤ a) := by
  constructor
  · induction h with
    | nil c => simp
    | typed c a rest bal hacc hrest ih =>
        rw [List.chain'_cons]
        obtain ⟨-, -, -, hlt, -, -⟩ := (checkBid_accept_iff a c bal base_price a).mp hacc
        exact ⟨hlt, ih⟩
    | quick c a rest ctx hcur hacc hrest ih =>
        rw [List.chain'_cons]
        refine ⟨?_, ih⟩
        simp only [handle_quick_bid, Bool.and_eq_true, decide_eq_true_eq] at hacc
        omega
  · intro a cur bal hacc hthr
    exact ((checkBid_accept_iff a cur bal base_price a).mp hacc).2.2.2.2.1 hthr

/-- Witness for C8 (amended) on the concrete history 10M, 11M over a
fresh round (current bid 0, base price 10M): the history is strictly
increasing. -/
theorem C8_amended_monotonic_witness :
    List.Chain' (fun x y : Int => x < y) [0, 10000000, 11000000] := by
  have h : BidChain 10000000 0 [10000000, 11000000] :=
    .typed 0 10000000 [11000000] 200000000 (by decide)
      (.typed 10000000 11000000 [] 200000000 (by decide) (.nil 11000000))
  exact (C8_amended_monotonic 10000000 0 [10000000, 11000000] h).1

/-!
## Finalization triggers (claim C1)

`SysState` is the store visible to the two finalize triggers for one
round: the auction document and the winning bidder's manager document.
Every step below is one serialized section of the Python control flow:

* `end_auction_automatically` (admin_handlers.py lines 559-572): the
  timer-expiry path; it re-reads the auction and returns without effect
  unless the status is still `active`.
* `final_call` (admin_handlers.py lines 1239-1324) runs in two phases:
  phase one captures `current_auction` and announces the final call;
  after the 5-second grace sleep, phase two re-reads the current active
  auction and aborts only when it exists with a higher bid — otherwise
  it finalizes from the captured snapshot with **no** check that the
  stored auction is still active.  `final_call_after_grace snapshot s`
  is phase two running against the store `s`.
-/

structure SysState where
  auction : Auction
  winner : Manager
deriving DecidableEq

/-- `Database.get_current_auction` (db.py lines 370-379):
`find_one({"status": "active"})`, in the single-round store. -/
def get_current_auction (s : SysState) : Option Auction :=
  if s.auction.status = .active then some s.auction else none

/-- The settlement effect shared by both triggers: `_finalize_auction_win`
on the stored auction when the chosen bidder exists, `_finalize_auction_unsold`
otherwise (`bidder` is the bidder field the trigger consulted). -/
def settle_outcome (bidder : Option Int) (s : SysState) : SysState :=
  match bidder with
  | some _ =>
      let r := finalize_auction_win s.auction s.winner true
      { auction := r.2, winner := r.1 }
  | none => { s with auction := finalize_auction_unsold s.auction }

/-- `AdminHandlers._end_auction_automatically`: no effect unless the
stored auction is still active; then settle by the stored bidder. -/
def end_auction_automatically (s : SysState) : SysState :=
  if s.auction.status = .active then
    settle_outcome s.auction.current_bidder s
  else s

/-- Phase two of `AdminHandlers.final_call` after the grace sleep,
running with the pre-sleep snapshot: when the re-read finds an active
auction with a strictly higher bid, bidding continues; in every other
case — including "no active auction found because the round already
completed" — it settles from the snapshot without a status check. -/
def final_call_after_grace (snapshot : Auction) (s : SysState) : SysState :=
  match get_current_auction s with
  | some upd =>
      if snapshot.current_bid < upd.current_bid then s
      else settle_outcome snapshot.current_bidder s
  | none => settle_outcome snapshot.current_bidder s

/-- Claim C1 is violated by the code: starting from an active round with
a 15M bid by bidder 7 and a 200M balance, the timer expiry settles once
(status completed, balance 185M); a manual final call whose snapshot was
taken before the expiry and whose grace delay elapses after it then
settles again, debiting the winner a second time (balance 170M). -/
theorem C1_double_settlement :
    (end_auction_automatically { auction := auctC5, winner := mgrC5 }).auction.status
        = .completed ∧
    (end_auction_automatically { auction := auctC5, winner := mgrC5 }).winner.balance
        = 185000000 ∧
    (final_call_after_grace auctC5
        (end_auction_automatically { auction := auctC5, winner := mgrC5 })).winner.balance
        = 170000000 := by
  decide

/-!
## Queue/sequencer status store (claim C2)

`SeqState` models the auction collection as a list of (id, status)
records plus the `paused_auction_id` setting.  The three operations are
the admin commands cited by the claim, each translated from its guard
structure in `admin_handlers.py`:

* `start_auction_command` (lines 38-87) refuses only when
  `get_current_auction()` finds an auction with status `active`;
  otherwise `_create_auction` inserts a new record whose dataclass
  default status is `active`.
* `stop_auction` (lines 1083-1133) pauses the current active auction
  and saves its id in the `paused_auction_id` setting.
* `continue_auction` (lines 1135-1202) sets the saved auction's status
  back to `active` with no check for another active auction.
-/

structure SeqState where
  auctions : List (Int × AuctionStatus)
  paused_auction_id : Option Int
  next_id : Int
deriving DecidableEq

/-- `find_one({"status": "active"})` over the auction collection. -/
def find_active (s : SeqState) : Option Int :=
  (s.auctions.find? (fun p => decide (p.2 = AuctionStatus.active))).map Prod.fst

/-- Set the status of the record with the given id. -/
def set_status (l : List (Int × AuctionStatus)) (id : Int) (st : AuctionStatus) :
    List (Int × AuctionStatus) :=
  l.map (fun p => if p.1 = id then (p.1, st) else p)

/-- `AdminHandlers.start_auction_command` followed by `_create_auction`:
refuse when an active auction exists, otherwise insert a fresh record
with status `active`. -/
def start_auction_command (s : SeqState) : SeqState :=
  match find_active s with
  | some _ => s
  | none =>
      { s with auctions := s.auctions ++ [(s.next_id, AuctionStatus.active)],
               next_id := s.next_id + 1 }

/-- `AdminHandlers.stop_auction`: pause the current active auction and
save its id in the `paused_auction_id` setting. -/
def stop_auction (s : SeqState) : SeqState :=
  match find_active s with
  | some i =>
      { s with auctions := set_status s.auctions i AuctionStatus.paused,
               paused_auction_id := some i }
  | none => s

/-- `AdminHandlers.continue_auction`: reactivate the saved auction
(checking only that a `paused_auction_id` is saved). -/
def continue_auction (s : SeqState) : SeqState :=
  match s.paused_auction_id with
  | some i =>
      { s with auctions := set_status s.auctions i AuctionStatus.active,
               paused_auction_id := none }
  | none => s

/-- Number of records with status `active`. -/
def count_active (s : SeqState) : Nat :=
  (s.auctions.filter (fun p => decide (p.2 = AuctionStatus.active))).length

/-- Claim C2 is violated by the code: from a single active auction (id 1),
the admin sequence pause → start new auction → resume ends with both
auction 1 and auction 2 holding status `active`. -/
theorem C2_two_active_reachable :
    count_active
      (continue_auction (start_auction_command (stop_auction
        { auctions := [(1, AuctionStatus.active)], paused_auction_id := none,
          next_id := 2 }))) = 2 := by
  decide

end AuctionBot
